import Mathlib

/-!
Shallow embedding of the real-time core of `game.py` ("Echo of Terminal 7"):
the top-level mode controller, the combat arena (`BossRoom`), the combatants
(`Player`, `HerdMember`), projectiles and the puzzle-flag store (`GameState`).

Positions are modelled over `ℚ`.  The floating-point library calls the source
makes (`Vector2.normalize`, `math.sin`, `math.cos`, `math.atan2`, `random.*`)
are supplied as explicit oracle inputs (`MemberEnv`, `FightEnv`, `SpawnDraw`),
so that every tick function is a pure computable function of the state and of
those inputs.  A distance comparison `a.distance_to(b) < c` of the source is
embedded as `distSq a b < c ^ 2`, which is equivalent for `c > 0` since both
sides of the source comparison are non-negative.  Particle spawns (a
write-only visual sink, per the source only `particles.spawn(...)` calls) and
pure drawing code are not modelled; `Player.draw`'s one piece of game state,
the invulnerability-countdown decrement, is modelled by `Player.drawStep`.
The player-movement physics of `Player.handle_input` is modelled exactly over
`ℝ` in the `PlayerPhysics` part at the end of the definitions.
-/

set_option maxRecDepth 8000

/-- Arena phase, source `BossRoom.state`, one of the strings
"intro" / "fight" / "win" / "game_over". -/
inductive BState
  | intro
  | fight
  | win
  | game_over
deriving DecidableEq

/-- Planar vector over `ℚ` (source `pygame.math.Vector2`). -/
abbrev Vec : Type := ℚ × ℚ

/-- Squared distance.  The source compares `a.distance_to(b) < c`; for
`0 < c` that is equivalent to `distSq a b < c ^ 2`. -/
def distSq (a b : Vec) : ℚ := (a.1 - b.1) ^ 2 + (a.2 - b.2) ^ 2

/-- Truncation toward zero, which is how Python `int()` and the
`pygame.Rect` constructor convert float coordinates. -/
def truncQ (q : ℚ) : ℤ := if 0 ≤ q then ⌊q⌋ else -⌊-q⌋

/-- Integer rectangle, source `pygame.Rect`. -/
structure Rect where
  x : ℤ
  y : ℤ
  w : ℤ
  h : ℤ
deriving DecidableEq

/-- Strict-overlap test of `pygame.Rect.colliderect`. -/
def rectsCollide (a b : Rect) : Prop :=
  a.x < b.x + b.w ∧ b.x < a.x + a.w ∧ a.y < b.y + b.h ∧ b.y < a.y + a.h

instance (a b : Rect) : Decidable (rectsCollide a b) := by
  unfold rectsCollide; infer_instance

/-- Source class `Projectile` (lines 223-238): position, velocity and the
liveness flag.  The velocity is fixed at creation as
`(cos angle, sin angle) * speed`. -/
structure Projectile where
  pos : Vec
  vel : Vec
  active : Bool
deriving DecidableEq

/-- Source `Projectile.update` (lines 233-238): move by the velocity, then
deactivate when the new position left the 960 x 540 playfield. -/
def Projectile.update (pr : Projectile) : Projectile :=
  let pos' : Vec := (pr.pos.1 + pr.vel.1, pr.pos.2 + pr.vel.2)
  { pr with
    pos := pos',
    active :=
      if pos'.1 < 0 ∨ pos'.1 > 960 ∨ pos'.2 < 0 ∨ pos'.2 > 540 then false
      else pr.active }

/-- Oracle inputs for one `HerdMember.update` call: `dir` stands for the
source's `(player_pos - self.pos).normalize()` (and for the zero vector when
the member coincides with the player, line 267-269), `wobble` for
`(sin wobble_phase', cos wobble_phase')` after the phase increment (line 273),
`aim` for `(cos angle, sin angle)` with `angle = atan2` toward the player
(lines 281-283), and `treset` for `random.randint(120, 240)` (line 279). -/
structure MemberEnv where
  dir : Vec
  wobble : Vec
  aim : Vec
  treset : ℤ

/-- Source class `HerdMember` (lines 246-263): the basic enemy unit.  Its
collision radius is the constant 18 (line 252); `speed` is drawn once at
spawn from `random.uniform(3.5, 5.0)`.  The `eyes_offset` appearance data is
drawing-only and not modelled. -/
structure HerdMember where
  pos : Vec
  hp : ℤ
  speed : ℚ
  wobble_phase : ℚ
  shoot_timer : ℤ
deriving DecidableEq

/-- Source `HerdMember.update` (lines 265-285): move toward the player with a
sinusoidal wobble (`pos += dir * speed + wobble`, where the source scales the
`(sin, cos)` pair by 0.5 and advances the phase by 0.2 first), then decrement
the shoot timer; at 0 or below, re-randomize the timer and fire one enemy
projectile from the (moved) position toward the player with speed
`ENEMY_PROJECTILE_SPEED = 7`.  Returns the updated member together with the
list of projectiles appended to `enemy_projectiles_list`. -/
def HerdMember.update (m : HerdMember) (e : MemberEnv) :
    HerdMember × List Projectile :=
  let phase := m.wobble_phase + 1 / 5
  let pos' : Vec :=
    (m.pos.1 + m.speed * e.dir.1 + (1 / 2) * e.wobble.1,
     m.pos.2 + m.speed * e.dir.2 + (1 / 2) * e.wobble.2)
  let t := m.shoot_timer - 1
  if t ≤ 0 then
    ({ m with pos := pos', wobble_phase := phase, shoot_timer := e.treset },
     [{ pos := pos', vel := (7 * e.aim.1, 7 * e.aim.2), active := true }])
  else
    ({ m with pos := pos', wobble_phase := phase, shoot_timer := t }, [])

/-- Source class `GameState` (lines 311-323): the global puzzle-flag store. -/
structure GameState where
  power_restored : Bool
  herd_secret_known : Bool
  slip_repaired : Bool
  botany_analyzed : Bool
  boss_unlocked : Bool
deriving DecidableEq

/-- Source `GameState.__init__` (lines 313-319): every flag starts false. -/
def GameState.init : GameState :=
  { power_restored := false, herd_secret_known := false, slip_repaired := false,
    botany_analyzed := false, boss_unlocked := false }

/-- Source `GameState.check_all_puzzles` (lines 321-323): when all four
prerequisite flags hold, set `boss_unlocked`; otherwise leave it unchanged. -/
def GameState.check_all_puzzles (g : GameState) : GameState :=
  if g.power_restored && g.herd_secret_known && g.slip_repaired && g.botany_analyzed
  then { g with boss_unlocked := true }
  else g

/-- Source class `Player` (lines 324-331), restricted to the fields the
combat logic reads or writes: position, the 32 x 32 collision rect, health
and the invulnerability countdown `invuln_timer`.  The velocity only feeds
`handle_input`, modelled exactly in the `PlayerPhysics` part. -/
structure Player where
  pos : Vec
  rect : Rect
  hp : ℤ
  invuln : ℤ
deriving DecidableEq

/-- Footprint of `Player.handle_input` (lines 333-352) on the combat state:
it rewrites `pos` (and the rect from the truncated position, line 352) and
touches neither health nor the invulnerability countdown.  The supplied
`newPos` is the post-physics clamped position; the exact pipeline producing
it is `handle_input` in the `PlayerPhysics` part. -/
def Player.applyMove (p : Player) (newPos : Vec) : Player :=
  { p with pos := newPos, rect := ⟨truncQ newPos.1, truncQ newPos.2, 32, 32⟩ }

/-- State effect of `Player.draw` (lines 354-358): while the countdown is
positive it is decremented exactly once; the rest of `draw` is pure
rendering. -/
def Player.drawStep (p : Player) : Player :=
  if 0 < p.invuln then { p with invuln := p.invuln - 1 } else p

/-- Accumulator threaded through the per-tick collision loops of
`BossRoom.update`: the player, the arena phase, and the enemy-projectile
list (to which swarm members append when they fire). -/
structure FightAcc where
  player : Player
  st : BState
  eps : List Projectile

/-- Collision rect of a swarm member (source line 752-753):
`pygame.Rect(pos.x - radius, pos.y - radius, radius*2, radius*2)` with
`radius = 18` and truncating coordinate conversion. -/
def mrect (m : HerdMember) : Rect :=
  ⟨truncQ (m.pos.1 - 18), truncQ (m.pos.2 - 18), 36, 36⟩

/-- One iteration of the swarm loop of `BossRoom.update` (lines 748-758):
advance the member (possibly appending a fired projectile), then resolve
body contact with the player — only when the invulnerability countdown is 0
does the contact cost one health point, set the 60-tick window and, when
lethal, force the phase to `game_over`. -/
def swarmStep (e : MemberEnv) (m : HerdMember) (acc : FightAcc) :
    HerdMember × FightAcc :=
  let r := HerdMember.update m e
  let eps' := acc.eps ++ r.2
  if acc.player.invuln = 0 ∧ rectsCollide (mrect r.1) acc.player.rect then
    let hp' := acc.player.hp - 1
    (r.1,
     { player := { acc.player with hp := hp', invuln := 60 },
       st := if hp' ≤ 0 then BState.game_over else acc.st,
       eps := eps' })
  else (r.1, { acc with eps := eps' })

/-- The swarm loop (`for monster in self.swarm`, lines 748-758), threading
the accumulator left to right; `env i` supplies the oracle inputs of the
i-th member this tick. -/
def swarmGo (env : ℕ → MemberEnv) : ℕ → List HerdMember → FightAcc →
    List HerdMember × FightAcc
  | _, [], acc => ([], acc)
  | i, m :: rest, acc =>
    let r := swarmStep (env i) m acc
    let rec' := swarmGo env (i + 1) rest r.2
    (r.1 :: rec'.1, rec'.2)

/-- One iteration of the enemy-projectile loop of `BossRoom.update`
(lines 761-772): move the projectile; when it is (still) active and within
20 units of the player (`distSq < 400 = 20 ^ 2`), it is deactivated — and it
costs one health point, sets the 60-tick window and, when lethal, forces
`game_over`, but only when the countdown is 0; otherwise it is absorbed. -/
def eprojStep (pr : Projectile) (p : Player) (st : BState) :
    Projectile × Player × BState :=
  let pr' := pr.update
  if pr'.active = true ∧ distSq pr'.pos p.pos < 400 then
    if p.invuln = 0 then
      let hp' := p.hp - 1
      ({ pr' with active := false },
       { p with hp := hp', invuln := 60 },
       if hp' ≤ 0 then BState.game_over else st)
    else ({ pr' with active := false }, p, st)
  else (pr', p, st)

/-- The enemy-projectile loop (`for p in self.enemy_projectiles`,
lines 761-772), over the list that already includes this tick's newly fired
projectiles. -/
def eprojGo : List Projectile → Player → BState →
    List Projectile × Player × BState
  | [], p, st => ([], p, st)
  | pr :: rest, p, st =>
    let r := eprojStep pr p st
    let rec' := eprojGo rest r.2.1 r.2.2
    (r.1 :: rec'.1, rec'.2)

/-- The inner scan of the player-projectile loop (lines 778-784): walk the
swarm in iteration order and, at the first member within
`radius + 5 = 23` units (`distSq < 529 = 23 ^ 2`), subtract the fixed 2
damage and stop.  Returns the new swarm and whether a hit landed. -/
def damageFirst (v : Vec) : List HerdMember → List HerdMember × Bool
  | [] => ([], false)
  | m :: rest =>
    if distSq v m.pos < 529 then ({ m with hp := m.hp - 2 } :: rest, true)
    else
      let r := damageFirst v rest
      (m :: r.1, r.2)

/-- One iteration of the player-projectile loop of `BossRoom.update`
(lines 775-786): the projectile is moved (`p.update()`, which may deactivate
it out of bounds) and the swarm is then scanned unconditionally; when the
scan hits, the projectile is deactivated. -/
def pprojStep (pr : Projectile) (ms : List HerdMember) :
    Projectile × List HerdMember :=
  let pr' := pr.update
  let r := damageFirst pr'.pos ms
  (if r.2 then { pr' with active := false } else pr', r.1)

/-- The player-projectile loop (`for p in self.player_projectiles`,
lines 775-786), threading the swarm list through successive scans. -/
def pprojGo : List Projectile → List HerdMember →
    List Projectile × List HerdMember
  | [], ms => ([], ms)
  | pr :: rest, ms =>
    let r := pprojStep pr ms
    let rec' := pprojGo rest r.2
    (r.1 :: rec'.1, rec'.2)

/-- Source class `BossRoom` (lines 682-692), restricted to simulation state:
swarm, the two projectile lists, the arena phase and the intro countdown. -/
structure BossRoom where
  swarm : List HerdMember
  player_projectiles : List Projectile
  enemy_projectiles : List Projectile
  state : BState
  intro_timer : ℤ
deriving DecidableEq

/-- Per-tick oracle inputs of the fight phase: one `MemberEnv` per swarm
member, plus the post-physics player position used by `Player.applyMove`. -/
structure FightEnv where
  mem : ℕ → MemberEnv
  pmove : Vec

/-- Everything the fight block of `BossRoom.update` (lines 746-795) computes
before dead-object cleanup and the terminal win check: the swarm after
update and damage (dead members still present), both projectile lists before
compaction, the phase after the hit processing, and the player. -/
structure FightMid where
  swarm : List HerdMember
  pps : List Projectile
  eps : List Projectile
  st : BState
  player : Player

/-- The fight block of `BossRoom.update` up to (not including) cleanup and
the terminal win check, in the source's fixed order: swarm loop, then
enemy-projectile loop, then player-projectile loop (lines 746-786). -/
def fightTickMid (br : BossRoom) (p : Player) (env : FightEnv) : FightMid :=
  let r1 := swarmGo env.mem 0 br.swarm
    { player := p, st := br.state, eps := br.enemy_projectiles }
  let r2 := eprojGo r1.2.eps r1.2.player r1.2.st
  let r3 := pprojGo br.player_projectiles r1.1
  { swarm := r3.2, pps := r3.1, eps := r2.1, st := r2.2.2, player := r2.2.1 }

/-- The intro-countdown step of `BossRoom.update` (lines 742-744): in the
intro phase the countdown runs and at 0 the phase flips to `fight` (the
fight block then runs in the same call). -/
def introStep (br : BossRoom) : BossRoom :=
  if br.state = BState.intro then
    { br with
      intro_timer := br.intro_timer - 1,
      state := if br.intro_timer - 1 ≤ 0 then BState.fight else BState.intro }
  else br

/-- Source `BossRoom.update` (lines 741-803).  After the intro countdown,
the fight block performs the collision loops (`fightTickMid`), removes
members with `hp ≤ 0` and inactive projectiles, and finally sets the phase
to `win` whenever no member remains — this last assignment is not guarded by
the current phase, exactly as in the source (line 798), so it also runs when
a hit earlier in the same call set `game_over`. -/
def BossRoom.update (br : BossRoom) (p : Player) (env : FightEnv) :
    BossRoom × Player :=
  let br1 := introStep br
  if br1.state = BState.fight then
    let mid := fightTickMid br1 p env
    let ms := mid.swarm.filter fun m => decide (0 < m.hp)
    ({ br1 with
       swarm := ms,
       player_projectiles := mid.pps.filter fun q => q.active,
       enemy_projectiles := mid.eps.filter fun q => q.active,
       state := if ms = [] then BState.win else mid.st },
     mid.player)
  else (br1, p)

/-- Random draws used by `BossRoom.reset` for one spawned member: the side
(`random.randint(0, 3)`), the position draws of that side's branch
(lines 707-719), and the `HerdMember.__init__` draws — speed
(`random.uniform(3.5, 5.0)`), wobble phase (`random.uniform(0, 6.28)`) and
shoot timer (`random.randint(60, 200)`). -/
structure SpawnDraw where
  side : ℤ
  x : ℚ
  y : ℚ
  speed : ℚ
  phase : ℚ
  stimer : ℤ

/-- The ranges the source's random draws satisfy, per spawn side. -/
def validDraw (d : SpawnDraw) : Prop :=
  (3.5 ≤ d.speed ∧ d.speed ≤ 5) ∧ (0 ≤ d.phase ∧ d.phase ≤ 6.28) ∧
  (60 ≤ d.stimer ∧ d.stimer ≤ 200) ∧
  ((d.side = 0 ∧ 0 ≤ d.x ∧ d.x ≤ 960 ∧ -60 ≤ d.y ∧ d.y ≤ -20) ∨
   (d.side = 1 ∧ 0 ≤ d.x ∧ d.x ≤ 960 ∧ 560 ≤ d.y ∧ d.y ≤ 600) ∨
   (d.side = 2 ∧ -60 ≤ d.x ∧ d.x ≤ -20 ∧ 0 ≤ d.y ∧ d.y ≤ 540) ∨
   (d.side = 3 ∧ 980 ≤ d.x ∧ d.x ≤ 1020 ∧ 0 ≤ d.y ∧ d.y ≤ 540))

/-- Source `HerdMember.__init__` (lines 248-263): health 4, position and the
randomized speed, wobble phase and shoot timer from the draws. -/
def HerdMember.init (d : SpawnDraw) : HerdMember :=
  { pos := (d.x, d.y), hp := 4, speed := d.speed, wobble_phase := d.phase,
    shoot_timer := d.stimer }

/-- Source `BossRoom.reset` (lines 694-728), audio calls omitted: spawn 15
members from the perimeter draws, clear both projectile lists, set the phase
to `intro` with countdown 180, recenter the player at (480, 270) and restore
full health (5).  The player's rect is not touched by the source here. -/
def BossRoom.reset (br : BossRoom) (p : Player) (draws : Fin 15 → SpawnDraw) :
    BossRoom × Player :=
  ({ br with
     swarm := List.ofFn fun i => HerdMember.init (draws i),
     player_projectiles := [],
     enemy_projectiles := [],
     state := BState.intro,
     intro_timer := 180 },
   { p with pos := ((480 : ℚ), (270 : ℚ)), hp := 5 })

/-- A position strictly outside the 960 x 540 playfield. -/
def outsideField (v : Vec) : Prop := v.1 < 0 ∨ 960 < v.1 ∨ v.2 < 0 ∨ 540 < v.2

instance (v : Vec) : Decidable (outsideField v) := by
  unfold outsideField; infer_instance

/-- Top-level modes of the main loop (source `mode` strings, lines 882-948). -/
inductive Mode
  | intro
  | hub
  | power_puzzle
  | server
  | botany
  | engineering
  | boss_room
deriving DecidableEq

/-- Input events as the main event loop discriminates them: quit, a key press
(tagged with whether it is ESC), a mouse press, or anything else. -/
inductive Ev
  | quit
  | key (esc : Bool)
  | mouse
  | other
deriving DecidableEq

/-- The main-loop state the event dispatch reads and writes: the mode, the
running flag, the puzzle flags, and the arena phase (the full arena state is
`BossRoom`; the dispatch only consults and resets its phase). -/
structure MainState where
  mode : Mode
  running : Bool
  flags : GameState
  bossState : BState
deriving DecidableEq

/-- The event dispatch of `main` (lines 894-916).  QUIT stops the loop.  In
intro mode any key or mouse press enters the hub.  Otherwise ESC: quits from
the hub; in boss mode with phase `game_over` it resets the arena (phase back
to `intro`, full effect in `BossRoom.reset`) and stays in boss mode; in every
other mode-and-phase it returns to the hub, re-evaluating the puzzle flags
unless coming from boss mode.  All remaining events are delegated to the
room handlers, none of which changes the mode. -/
def mainHandleEvent (s : MainState) (e : Ev) : MainState :=
  match e with
  | Ev.quit => { s with running := false }
  | e =>
    if s.mode = Mode.intro then
      match e with
      | Ev.key _ => { s with mode := Mode.hub }
      | Ev.mouse => { s with mode := Mode.hub }
      | _ => s
    else
      match e with
      | Ev.key true =>
        if s.mode = Mode.hub then { s with running := false }
        else if s.mode = Mode.boss_room ∧ s.bossState = BState.game_over then
          { s with bossState := BState.intro }
        else
          { s with
            mode := Mode.hub,
            flags :=
              if s.mode = Mode.boss_room then s.flags
              else s.flags.check_all_puzzles }
      | _ => s

/-- One boss-mode frame of the main loop (lines 941-944 plus the player draw
inside `BossRoom.draw`, line 817): the player physics runs only in the fight
phase, then `BossRoom.update`, then the draw pass which decrements a positive
invulnerability countdown once. -/
def bossFrame (br : BossRoom) (p : Player) (env : FightEnv) :
    BossRoom × Player :=
  let p1 := if br.state = BState.fight then p.applyMove env.pmove else p
  let r := BossRoom.update br p1 env
  (r.1, r.2.drawStep)

/-- One hub-mode frame of the main loop restricted to the player (lines
923-939): player physics, then the draw pass with its countdown decrement.
The hub's flag updates and door transitions do not touch the player. -/
def hubFrame (p : Player) (mv : Vec) : Player :=
  (p.applyMove mv).drawStep

/-- One frame of the main loop per mode, restricted to the arena and the
player (lines 918-948): the intro screen and the four puzzle rooms never
touch the player or the arena; the hub and the boss room do as modelled
above. -/
def frameTick (m : Mode) (br : BossRoom) (p : Player) (env : FightEnv)
    (hubMv : Vec) : BossRoom × Player :=
  match m with
  | Mode.hub => (br, hubFrame p hubMv)
  | Mode.boss_room => bossFrame br p env
  | _ => (br, p)

/-- Invariant threaded through the per-tick collision folds when the player
enters the tick vulnerable (`invuln = 0`): either no hit has landed yet, or
exactly one hit has landed — health down by one, countdown set to 60, the
phase either untouched or `game_over`, and `game_over` guaranteed whenever
that hit was lethal. -/
def InvP (p0 : Player) (st0 : BState) (p : Player) (st : BState) : Prop :=
  (p = p0 ∧ st = st0) ∨
  (p.hp = p0.hp - 1 ∧ p.invuln = 60 ∧
   (st = st0 ∨ st = BState.game_over) ∧
   (p.hp ≤ 0 → st = BState.game_over))

/-!
The exact player-movement physics of `Player.handle_input` (lines 333-352),
modelled over `ℝ`.  The four key flags each model the disjunction of the two
source keys of that direction (`K_a or K_LEFT`, etc.).
-/

/-- Input flags of one `handle_input` call. -/
structure Keys where
  left : Bool
  right : Bool
  up : Bool
  down : Bool

/-- Acceleration accumulation (lines 335-339): `PLAYER_ACCEL = 0.8` per held
direction, opposite and diagonal directions summing componentwise. -/
def accelOf (k : Keys) : ℝ × ℝ :=
  ((if k.left then -(0.8 : ℝ) else 0) + (if k.right then (0.8 : ℝ) else 0),
   (if k.up then -(0.8 : ℝ) else 0) + (if k.down then (0.8 : ℝ) else 0))

/-- Velocity after adding the acceleration and applying the friction factor
`PLAYER_FRICTION = 0.85`, applied every tick regardless of input
(lines 341-342). -/
def velAfterFriction (k : Keys) (v : ℝ × ℝ) : ℝ × ℝ :=
  ((0.85 : ℝ) * (v.1 + (accelOf k).1), (0.85 : ℝ) * (v.2 + (accelOf k).2))

open Classical in
/-- The speed cap (line 345): when `vel.length() > MAX_SPEED = 6`, rescale by
`6 / length` (the effect of `scale_to_length(6)`); otherwise leave the
velocity unchanged. -/
noncomputable def capVel (v : ℝ × ℝ) : ℝ × ℝ :=
  if 6 < Real.sqrt (v.1 ^ 2 + v.2 ^ 2) then
    ((6 / Real.sqrt (v.1 ^ 2 + v.2 ^ 2)) * v.1,
     (6 / Real.sqrt (v.1 ^ 2 + v.2 ^ 2)) * v.2)
  else v

/-- The boundary clamp (lines 350-351): each coordinate clamped to the
playfield minus the 32-pixel footprint. -/
def clampPos (p : ℝ × ℝ) : ℝ × ℝ :=
  (max 0 (min p.1 (960 - 32)), max 0 (min p.2 (540 - 32)))

/-- Source `Player.handle_input` (lines 333-352) over `ℝ`: accumulate the
acceleration, add it to the velocity, apply friction, cap the speed,
integrate the position and clamp it.  Returns (new position, new velocity). -/
noncomputable def handle_input (k : Keys) (pos vel : ℝ × ℝ) :
    (ℝ × ℝ) × (ℝ × ℝ) :=
  let v2 := velAfterFriction k vel
  let v3 := capVel v2
  (clampPos (pos.1 + v3.1, pos.2 + v3.2), v3)

/-!
Concrete states used by the counterexamples and witnesses below.
-/

/-- A member oracle with exact rational unit vectors: direction straight
down (member above the player), wobble phase at a zero of sine. -/
def envDown : FightEnv := ⟨fun _ => ⟨(0, 1), (0, 1), (0, 1), 120⟩, (480, 500)⟩

/-- Oracle for a member standing exactly on the player: the source's
normalize guard yields the zero direction vector. -/
def envZero : FightEnv := ⟨fun _ => ⟨(0, 0), (0, 1), (1, 0), 120⟩, (480, 270)⟩

/-- Oracle for a member straight right of nothing in particular; used where
member movement is irrelevant. -/
def envRight : FightEnv := ⟨fun _ => ⟨(1, 0), (0, 1), (1, 0), 120⟩, (800, 400)⟩

/-- Fight state for the C2 counterexample: one member of full health (hp 4)
at (100, 100) and three player projectiles that will all reach it this
tick. -/
def brC2 : BossRoom :=
  { swarm := [⟨(100, 100), 4, 4, 0, 50⟩],
    player_projectiles :=
      [⟨(90, 100), (14, 0), true⟩, ⟨(90, 100), (14, 0), true⟩,
       ⟨(90, 100), (14, 0), true⟩],
    enemy_projectiles := [],
    state := BState.fight,
    intro_timer := 0 }

/-- Player far from the C2 member. -/
def pC2 : Player := ⟨(800, 400), ⟨800, 400, 32, 32⟩, 5, 0⟩

/-- Fight state for the C3 counterexample: the last member (hp 2) stands on
the player (health 1, vulnerable), and one player projectile will finish the
member off in the same tick. -/
def brC3 : BossRoom :=
  { swarm := [⟨(480, 270), 2, 4, 0, 50⟩],
    player_projectiles := [⟨(470, 270.5), (10, 0), true⟩],
    enemy_projectiles := [],
    state := BState.fight,
    intro_timer := 0 }

/-- Player of the C3 counterexample: health 1, vulnerable, under the member. -/
def pC3 : Player := ⟨(480, 270), ⟨480, 270, 32, 32⟩, 1, 0⟩

/-- Projectile of the C4 counterexample: about to leave the playfield
through the top edge, right next to an incoming member. -/
def prC4 : Projectile := ⟨(480, 10), (0, -14), true⟩

/-- Fight state for the C4 counterexample: one member still outside the top
edge, and `prC4` exiting the playfield toward it. -/
def brC4 : BossRoom :=
  { swarm := [⟨(480, -22), 4, 3.5, 0, 50⟩],
    player_projectiles := [prC4],
    enemy_projectiles := [],
    state := BState.fight,
    intro_timer := 0 }

/-- Player far from the C4 member. -/
def pC4 : Player := ⟨(480, 500), ⟨480, 500, 32, 32⟩, 5, 0⟩

/-- Player with a positive invulnerability countdown, for the C6
counterexample and witnesses. -/
def pC6 : Player := ⟨(100, 100), ⟨100, 100, 32, 32⟩, 5, 5⟩

/-- Quiet arena used where the arena content is irrelevant. -/
def brQuiet : BossRoom :=
  { swarm := [], player_projectiles := [], enemy_projectiles := [],
    state := BState.intro, intro_timer := 100 }

/-- Fight arena with an empty swarm, used by the C5 witness. -/
def brEmptyFight : BossRoom :=
  { swarm := [], player_projectiles := [], enemy_projectiles := [],
    state := BState.fight, intro_timer := 0 }

/-- Player used by the C5 witness: health 3, countdown 10. -/
def pC5 : Player := ⟨(480, 270), ⟨480, 270, 32, 32⟩, 3, 10⟩

/-- Arena in the win phase, used by the C3 witness. -/
def brWin : BossRoom :=
  { swarm := [], player_projectiles := [], enemy_projectiles := [],
    state := BState.win, intro_timer := 0 }

/-- Main-loop state in boss mode during the fight phase. -/
def sFight : MainState :=
  { mode := Mode.boss_room, running := true, flags := GameState.init,
    bossState := BState.fight }

/-- Main-loop state in boss mode during the game-over phase. -/
def sOver : MainState :=
  { mode := Mode.boss_room, running := true, flags := GameState.init,
    bossState := BState.game_over }

/-- Spawn draws for the C8 witness: every member from the top side. -/
def drawsTop : Fin 15 → SpawnDraw := fun _ => ⟨0, 100, -30, 4, 1, 100⟩

/-- One swarm member used by the C4 witness (first of two overlapping
members in projectile range). -/
def mA : HerdMember := ⟨(104, 100), 4, 4, 0, 50⟩

/-- Second swarm member of the C4 witness, overlapping the first. -/
def mB : HerdMember := ⟨(106, 100), 4, 4, 0, 50⟩

/-- Projectile of the C4 witness, reaching both members this tick. -/
def prW4 : Projectile := ⟨(90, 100), (14, 0), true⟩

/-- Fight arena with a single healthy member away from all projectiles,
used by the C2 witness. -/
def brW2 : BossRoom :=
  { swarm := [⟨(100, 100), 4, 4, 0, 50⟩], player_projectiles := [],
    enemy_projectiles := [], state := BState.fight, intro_timer := 0 }

/-- Enemy projectile of the C10 witness, one step from the player. -/
def prW10 : Projectile := ⟨(100, 100), (1, 0), true⟩

/-- Player of the C10 witness: vulnerable, health 5, next to `prW10`. -/
def pW10 : Player := ⟨(101, 100), ⟨101, 100, 32, 32⟩, 5, 0⟩

/-!
Helper lemmas shared by several claim theorems.
-/

theorem introStep_not_intro (br : BossRoom) (h : br.state ≠ BState.intro) :
    introStep br = br := by
  unfold introStep; rw [if_neg h]

theorem introStep_swarm (br : BossRoom) : (introStep br).swarm = br.swarm := by
  unfold introStep; split <;> rfl

theorem introStep_state (br : BossRoom)
    (h : (introStep br).state = BState.fight ∨
      (introStep br).state = BState.intro) :
    br.state = BState.fight ∨ br.state = BState.intro := by
  unfold introStep at h
  by_cases hi : br.state = BState.intro
  · exact Or.inr hi
  · rw [if_neg hi] at h; exact h

theorem applyMove_hp (p : Player) (v : Vec) : (p.applyMove v).hp = p.hp := rfl

theorem applyMove_invuln (p : Player) (v : Vec) :
    (p.applyMove v).invuln = p.invuln := rfl

theorem drawStep_hp (p : Player) : p.drawStep.hp = p.hp := by
  unfold Player.drawStep; split <;> rfl

theorem HerdMember.update_hp (m : HerdMember) (e : MemberEnv) :
    ((HerdMember.update m e).1).hp = m.hp := by
  simp only [HerdMember.update]; split <;> rfl

theorem swarmStep_fst (e : MemberEnv) (m : HerdMember) (acc : FightAcc) :
    (swarmStep e m acc).1 = (HerdMember.update m e).1 := by
  simp only [swarmStep]; split <;> rfl

theorem swarmStep_stuck (e : MemberEnv) (m : HerdMember) (acc : FightAcc)
    (h : acc.player.invuln ≠ 0) :
    (swarmStep e m acc).2.player = acc.player ∧
    (swarmStep e m acc).2.st = acc.st := by
  simp only [swarmStep]
  split
  · next hc => exact absurd hc.1 h
  · exact ⟨rfl, rfl⟩

theorem swarmGo_frozen (env : ℕ → MemberEnv) (ms : List HerdMember) :
    ∀ (i : ℕ) (acc : FightAcc), acc.player.invuln ≠ 0 →
      (swarmGo env i ms acc).2.player = acc.player ∧
      (swarmGo env i ms acc).2.st = acc.st := by
  induction ms with
  | nil => intro i acc _; exact ⟨rfl, rfl⟩
  | cons m rest ih =>
    intro i acc h
    have hs := swarmStep_stuck (env i) m acc h
    have hr := ih (i + 1) (swarmStep (env i) m acc).2 (by rw [hs.1]; exact h)
    simp only [swarmGo]
    exact ⟨hr.1.trans hs.1, hr.2.trans hs.2⟩

theorem eprojStep_stuck (pr : Projectile) (p : Player) (st : BState)
    (h : p.invuln ≠ 0) :
    (eprojStep pr p st).2.1 = p ∧ (eprojStep pr p st).2.2 = st := by
  simp only [eprojStep]
  split
  · exact ⟨rfl, rfl⟩
  · exact ⟨rfl, rfl⟩

theorem eprojGo_frozen (ps : List Projectile) :
    ∀ (p : Player) (st : BState), p.invuln ≠ 0 →
      (eprojGo ps p st).2.1 = p ∧ (eprojGo ps p st).2.2 = st := by
  induction ps with
  | nil => intro p st _; exact ⟨rfl, rfl⟩
  | cons pr rest ih =>
    intro p st h
    have hs := eprojStep_stuck pr p st h
    have hr := ih (eprojStep pr p st).2.1 (eprojStep pr p st).2.2
      (by rw [hs.1]; exact h)
    simp only [eprojGo]
    exact ⟨hr.1.trans hs.1, hr.2.trans hs.2⟩

theorem fightTickMid_frozen (br : BossRoom) (p : Player) (env : FightEnv)
    (h : p.invuln ≠ 0) :
    (fightTickMid br p env).player = p ∧ (fightTickMid br p env).st = br.state := by
  have h1 := swarmGo_frozen env.mem br.swarm 0
    { player := p, st := br.state, eps := br.enemy_projectiles } h
  have h2 := eprojGo_frozen
    (swarmGo env.mem 0 br.swarm
      { player := p, st := br.state, eps := br.enemy_projectiles }).2.eps
    (swarmGo env.mem 0 br.swarm
      { player := p, st := br.state, eps := br.enemy_projectiles }).2.player
    (swarmGo env.mem 0 br.swarm
      { player := p, st := br.state, eps := br.enemy_projectiles }).2.st
    (by rw [h1.1]; exact h)
  simp only [fightTickMid]
  exact ⟨h2.1.trans h1.1, h2.2.trans h1.2⟩

/-!
Claim C7.
-/

/-- C7: after an evaluation of `check_all_puzzles` performed with every
prerequisite flag true, `boss_unlocked` is true; with any prerequisite flag
false the evaluation leaves `boss_unlocked` unchanged (hence it stays false,
and it starts false). -/
theorem c7_boss_unlocked_eval (g : GameState) :
    ((g.power_restored && g.herd_secret_known && g.slip_repaired &&
        g.botany_analyzed) = true →
      g.check_all_puzzles.boss_unlocked = true) ∧
    ((g.power_restored && g.herd_secret_known && g.slip_repaired &&
        g.botany_analyzed) = false →
      g.check_all_puzzles.boss_unlocked = g.boss_unlocked) ∧
    GameState.init.boss_unlocked = false := by
  refine ⟨?_, ?_, rfl⟩
  · intro h; simp [GameState.check_all_puzzles, h]
  · intro h; simp [GameState.check_all_puzzles, h]

/-- Witness for C7 at concrete flag stores. -/
theorem c7_boss_unlocked_eval_witness :
    (GameState.check_all_puzzles ⟨true, true, true, true, false⟩).boss_unlocked
      = true ∧
    (GameState.check_all_puzzles ⟨true, false, true, true, false⟩).boss_unlocked
      = false := by
  constructor
  · exact (c7_boss_unlocked_eval ⟨true, true, true, true, false⟩).1 (by decide)
  · rw [(c7_boss_unlocked_eval ⟨true, false, true, true, false⟩).2.1 (by decide)]

/-!
Claim C8.
-/

/-- C8: for every admissible family of random draws, `reset` yields phase
`intro` with the fixed countdown 180, a fully healed (hp 5) recentered
player, empty projectile lists, and a 15-member swarm entirely outside the
playfield perimeter. -/
theorem c8_reset_establishes (br : BossRoom) (p : Player)
    (draws : Fin 15 → SpawnDraw) (h : ∀ i, validDraw (draws i)) :
    (br.reset p draws).1.state = BState.intro ∧
    (br.reset p draws).1.intro_timer = 180 ∧
    (br.reset p draws).2.hp = 5 ∧
    (br.reset p draws).2.pos = ((480 : ℚ), (270 : ℚ)) ∧
    (br.reset p draws).1.player_projectiles = [] ∧
    (br.reset p draws).1.enemy_projectiles = [] ∧
    (br.reset p draws).1.swarm.length = 15 ∧
    ∀ m ∈ (br.reset p draws).1.swarm, outsideField m.pos := by
  refine ⟨rfl, rfl, rfl, rfl, rfl, rfl, by simp [BossRoom.reset], ?_⟩
  intro m hm
  simp only [BossRoom.reset, List.mem_ofFn] at hm
  obtain ⟨i, hi⟩ := hm
  subst hi
  have hv := (h i).2.2.2
  unfold outsideField HerdMember.init
  dsimp only
  rcases hv with ⟨-, -, -, -, hy⟩ | ⟨-, -, -, hy, -⟩ | ⟨-, -, hx, -, -⟩ |
    ⟨-, hx, -, -, -⟩
  · exact Or.inr (Or.inr (Or.inl (by linarith)))
  · exact Or.inr (Or.inr (Or.inr (by linarith)))
  · exact Or.inl (by linarith)
  · exact Or.inr (Or.inl (by linarith))

/-- Witness for C8 with all fifteen draws from the top side. -/
theorem c8_reset_establishes_witness :
    (brQuiet.reset pC5 drawsTop).1.state = BState.intro ∧
    (brQuiet.reset pC5 drawsTop).1.swarm.length = 15 ∧
    (brQuiet.reset pC5 drawsTop).2.hp = 5 := by
  have hv : validDraw (⟨0, 100, -30, 4, 1, 100⟩ : SpawnDraw) := by
    unfold validDraw
    refine ⟨⟨?_, ?_⟩, ⟨?_, ?_⟩, ⟨?_, ?_⟩, Or.inl ⟨rfl, ?_, ?_, ?_, ?_⟩⟩ <;> norm_num
  have h := c8_reset_establishes brQuiet pC5 drawsTop (fun _ => hv)
  exact ⟨h.1, h.2.2.2.2.2.2.1, h.2.2.1⟩

/-!
Claim C1.
-/

/-- Counterexample to C1 as stated: with the mode `boss_room` and the arena
phase `fight`, the ESC key event transitions the mode straight to `hub`
(source lines 902-909), so an input event does cause CombatArena → Hub while
the phase is `fight`. -/
theorem c1_fight_esc_to_hub :
    sFight.mode = Mode.boss_room ∧ sFight.bossState = BState.fight ∧
    (mainHandleEvent sFight (Ev.key true)).mode = Mode.hub := by decide

/-- C1 (amended): from boss mode, ESC with phase `game_over` resets the
arena phase to `intro` and stays in boss mode; ESC in any other phase
(including `fight`) transitions to the hub leaving the arena phase alone;
no other event changes the mode. -/
theorem c1_boss_esc_transitions (s : MainState) (h : s.mode = Mode.boss_room) :
    (s.bossState = BState.game_over →
      (mainHandleEvent s (Ev.key true)).mode = Mode.boss_room ∧
      (mainHandleEvent s (Ev.key true)).bossState = BState.intro ∧
      (mainHandleEvent s (Ev.key true)).flags = s.flags) ∧
    (s.bossState ≠ BState.game_over →
      (mainHandleEvent s (Ev.key true)).mode = Mode.hub ∧
      (mainHandleEvent s (Ev.key true)).bossState = s.bossState) ∧
    (mainHandleEvent s (Ev.key false)).mode = s.mode ∧
    (mainHandleEvent s Ev.mouse).mode = s.mode ∧
    (mainHandleEvent s Ev.other).mode = s.mode := by
  obtain ⟨mo, ru, fl, bs⟩ := s
  cases h
  refine ⟨?_, ?_, ?_, ?_, ?_⟩
  · intro hgo; cases hgo; exact ⟨rfl, rfl, rfl⟩
  · intro hngo
    cases bs with
    | game_over => exact absurd rfl hngo
    | intro => exact ⟨rfl, rfl⟩
    | fight => exact ⟨rfl, rfl⟩
    | win => exact ⟨rfl, rfl⟩
  · rfl
  · rfl
  · rfl

/-- Witness for C1's amended theorem in the game-over phase. -/
theorem c1_boss_esc_transitions_witness :
    (mainHandleEvent sOver (Ev.key true)).mode = Mode.boss_room ∧
    (mainHandleEvent sOver (Ev.key true)).bossState = BState.intro := by
  have h := (c1_boss_esc_transitions sOver rfl).1 rfl
  exact ⟨h.1, h.2.1⟩

/-!
Claim C3.
-/

/-- Counterexample to C3 as stated: in a fight tick where a lethal body
contact sets the phase to `game_over` and a projectile then removes the last
swarm member, the terminal win check (source line 798) is evaluated while
the phase is already the terminal `game_over`, and it changes the phase to
`win` — the tick ends in `win` with the player at 0 health. -/
theorem c3_terminal_check_game_over_to_win :
    (fightTickMid brC3 pC3 envZero).st = BState.game_over ∧
    (BossRoom.update brC3 pC3 envZero).1.state = BState.win ∧
    (BossRoom.update brC3 pC3 envZero).2.hp = 0 := by
  norm_num [fightTickMid, swarmGo, swarmStep, HerdMember.update, eprojGo,
    eprojStep, pprojGo, pprojStep, damageFirst, Projectile.update, distSq,
    mrect, truncQ, rectsCollide, BossRoom.update, introStep, brC3, pC3,
    envZero, List.filter]
  decide

/-- C3 (amended): a tick that begins in a terminal phase (`win` or
`game_over`) is a no-op, leaving arena and player unchanged; but within a
single fight tick the win check is evaluated even after the phase became
`game_over`, and overrides it (see the counterexample). -/
theorem c3_terminal_states_fixed (br : BossRoom) (p : Player) (env : FightEnv)
    (h : br.state = BState.win ∨ br.state = BState.game_over) :
    BossRoom.update br p env = (br, p) := by
  have h1 : br.state ≠ BState.intro := by
    rcases h with h | h <;> rw [h] <;> decide
  have h2 : br.state ≠ BState.fight := by
    rcases h with h | h <;> rw [h] <;> decide
  simp only [BossRoom.update]
  rw [introStep_not_intro br h1, if_neg h2]

/-- Witness for C3's amended theorem at a concrete win-phase arena. -/
theorem c3_terminal_states_fixed_witness :
    BossRoom.update brWin pC5 envZero = (brWin, pC5) :=
  c3_terminal_states_fixed brWin pC5 envZero (Or.inl rfl)

/-!
Claim C6 counterexample.
-/

/-- Counterexample to C6 as stated: in puzzle mode (here `power_puzzle`) the
frame never calls `Player.draw`, so a positive invulnerability countdown is
not decremented during that simulation tick. -/
theorem c6_puzzle_mode_no_decrement :
    0 < pC6.invuln ∧
    (frameTick Mode.power_puzzle brQuiet pC6 envZero
        ((100 : ℚ), (100 : ℚ))).2.invuln = pC6.invuln := by decide

/-!
Claim C10.
-/

/-- C10: an enemy projectile that (after its move) is within 20 units of the
player ends the loop iteration deactivated in every case; it costs one
health point and starts the 60-tick window only when the countdown is 0,
and is absorbed without touching the player otherwise; out of range it
changes nothing.  Swarm members fire on their per-member randomized timer:
when the decremented timer reaches 0 the timer is re-randomized and exactly
one projectile spawns at the member's moved position with velocity
`7 * (cos angle, sin angle)` toward the player. -/
theorem c10_enemy_projectile_hit (pr : Projectile) (p : Player) (st : BState)
    (m : HerdMember) (e : MemberEnv) :
    (distSq (Projectile.update pr).pos p.pos < 400 →
      ((eprojStep pr p st).1).active = false) ∧
    ((Projectile.update pr).active = true →
      distSq (Projectile.update pr).pos p.pos < 400 →
      ((p.invuln = 0 →
          (eprojStep pr p st).2.1.hp = p.hp - 1 ∧
          (eprojStep pr p st).2.1.invuln = 60 ∧
          (eprojStep pr p st).2.2 =
            (if p.hp - 1 ≤ 0 then BState.game_over else st)) ∧
        (p.invuln ≠ 0 →
          (eprojStep pr p st).2.1 = p ∧ (eprojStep pr p st).2.2 = st))) ∧
    (¬ distSq (Projectile.update pr).pos p.pos < 400 →
      (eprojStep pr p st).2.1 = p ∧ (eprojStep pr p st).2.2 = st ∧
      (eprojStep pr p st).1 = Projectile.update pr) ∧
    (m.shoot_timer - 1 ≤ 0 →
      (HerdMember.update m e).2 =
        [{ pos := (HerdMember.update m e).1.pos,
           vel := (7 * e.aim.1, 7 * e.aim.2), active := true }] ∧
      (HerdMember.update m e).1.shoot_timer = e.treset) ∧
    (¬ m.shoot_timer - 1 ≤ 0 →
      (HerdMember.update m e).2 = [] ∧
      (HerdMember.update m e).1.shoot_timer = m.shoot_timer - 1) := by
  refine ⟨?_, ?_, ?_, ?_, ?_⟩
  · intro hd
    simp only [eprojStep]
    split
    · split <;> rfl
    · next hneg =>
      cases hA : (Projectile.update pr).active with
      | false => rfl
      | true => exact absurd ⟨hA, hd⟩ hneg
  · intro hA hd
    constructor
    · intro hv
      simp only [eprojStep]
      rw [if_pos ⟨hA, hd⟩, if_pos hv]
      exact ⟨rfl, rfl, rfl⟩
    · intro hv
      simp only [eprojStep]
      rw [if_pos ⟨hA, hd⟩, if_neg hv]
      exact ⟨rfl, rfl⟩
  · intro hd
    simp only [eprojStep]
    rw [if_neg (fun hc => hd hc.2)]
    exact ⟨rfl, rfl, rfl⟩
  · intro ht
    simp only [HerdMember.update]
    rw [if_pos ht]
    exact ⟨rfl, rfl⟩
  · intro ht
    simp only [HerdMember.update]
    rw [if_neg ht]
    exact ⟨rfl, rfl⟩

/-- Witness for C10: a vulnerable player next to an enemy projectile takes
one damage, gains the 60-tick window, and the projectile deactivates. -/
theorem c10_enemy_projectile_hit_witness :
    (eprojStep prW10 pW10 BState.fight).2.1.hp = pW10.hp - 1 ∧
    (eprojStep prW10 pW10 BState.fight).2.1.invuln = 60 ∧
    ((eprojStep prW10 pW10 BState.fight).1).active = false := by
  have h := c10_enemy_projectile_hit prW10 pW10 BState.fight
    ⟨(0, 0), 4, 4, 0, 50⟩ ⟨(0, 0), (0, 0), (0, 0), 0⟩
  have hA : (Projectile.update prW10).active = true := by
    norm_num [Projectile.update, prW10]
  have hD : distSq (Projectile.update prW10).pos pW10.pos < 400 := by
    norm_num [distSq, Projectile.update, prW10, pW10]
  have hb := (h.2.1 hA hD).1 rfl
  exact ⟨hb.1, hb.2.1, h.1 hD⟩

/-!
Invariant lemmas for the collision folds, used by claims C5 and C6.
-/

theorem swarmStep_invp (p0 : Player) (st0 : BState) (e : MemberEnv)
    (m : HerdMember) (acc : FightAcc) (h : InvP p0 st0 acc.player acc.st) :
    InvP p0 st0 (swarmStep e m acc).2.player (swarmStep e m acc).2.st := by
  simp only [swarmStep]
  split
  · next hc =>
    rcases h with ⟨hpl, hst⟩ | ⟨h1, h2, h3, h4⟩
    · right
      dsimp only
      refine ⟨by rw [hpl], rfl, ?_, ?_⟩
      · by_cases h5 : acc.player.hp - 1 ≤ 0
        · rw [if_pos h5]; exact Or.inr rfl
        · rw [if_neg h5]; exact Or.inl hst
      · intro h5
        rw [if_pos h5]
    · exfalso
      rw [hc.1] at h2
      exact absurd h2 (by decide)
  · exact h

theorem swarmGo_invp (p0 : Player) (st0 : BState) (env : ℕ → MemberEnv)
    (ms : List HerdMember) :
    ∀ (i : ℕ) (acc : FightAcc), InvP p0 st0 acc.player acc.st →
      InvP p0 st0 (swarmGo env i ms acc).2.player (swarmGo env i ms acc).2.st := by
  induction ms with
  | nil => intro i acc h; exact h
  | cons m rest ih =>
    intro i acc h
    simp only [swarmGo]
    exact ih (i + 1) (swarmStep (env i) m acc).2
      (swarmStep_invp p0 st0 (env i) m acc h)

theorem eprojStep_invp (p0 : Player) (st0 : BState) (pr : Projectile)
    (p : Player) (st : BState) (h : InvP p0 st0 p st) :
    InvP p0 st0 (eprojStep pr p st).2.1 (eprojStep pr p st).2.2 := by
  simp only [eprojStep]
  split
  · split
    · next hv =>
      rcases h with ⟨hpl, hst⟩ | ⟨h1, h2, h3, h4⟩
      · right
        dsimp only
        refine ⟨by rw [hpl], rfl, ?_, ?_⟩
        · by_cases h5 : p.hp - 1 ≤ 0
          · rw [if_pos h5]; exact Or.inr rfl
          · rw [if_neg h5]; exact Or.inl hst
        · intro h5
          rw [if_pos h5]
      · exfalso
        rw [hv] at h2
        exact absurd h2 (by decide)
    · exact h
  · exact h

theorem eprojGo_invp (p0 : Player) (st0 : BState) (ps : List Projectile) :
    ∀ (p : Player) (st : BState), InvP p0 st0 p st →
      InvP p0 st0 (eprojGo ps p st).2.1 (eprojGo ps p st).2.2 := by
  induction ps with
  | nil => intro p st h; exact h
  | cons pr rest ih =>
    intro p st h
    simp only [eprojGo]
    exact ih (eprojStep pr p st).2.1 (eprojStep pr p st).2.2
      (eprojStep_invp p0 st0 pr p st h)

theorem fightTickMid_invp (br : BossRoom) (p : Player) (env : FightEnv) :
    InvP p br.state (fightTickMid br p env).player (fightTickMid br p env).st := by
  simp only [fightTickMid]
  exact eprojGo_invp p br.state _ _ _
    (swarmGo_invp p br.state env.mem br.swarm 0
      ⟨p, br.state, br.enemy_projectiles⟩ (Or.inl ⟨rfl, rfl⟩))

theorem swarmStep_invuln_cases (e : MemberEnv) (m : HerdMember)
    (acc : FightAcc) :
    (swarmStep e m acc).2.player.invuln = acc.player.invuln ∨
    (swarmStep e m acc).2.player.invuln = 60 := by
  simp only [swarmStep]
  split
  · exact Or.inr rfl
  · exact Or.inl rfl

theorem swarmGo_invuln_nonneg (env : ℕ → MemberEnv) (ms : List HerdMember) :
    ∀ (i : ℕ) (acc : FightAcc), 0 ≤ acc.player.invuln →
      0 ≤ (swarmGo env i ms acc).2.player.invuln := by
  induction ms with
  | nil => intro i acc h; exact h
  | cons m rest ih =>
    intro i acc h
    simp only [swarmGo]
    refine ih (i + 1) (swarmStep (env i) m acc).2 ?_
    rcases swarmStep_invuln_cases (env i) m acc with hc | hc <;> rw [hc] <;> omega

theorem eprojStep_invuln_cases (pr : Projectile) (p : Player) (st : BState) :
    (eprojStep pr p st).2.1.invuln = p.invuln ∨
    (eprojStep pr p st).2.1.invuln = 60 := by
  simp only [eprojStep]
  split
  · split
    · exact Or.inr rfl
    · exact Or.inl rfl
  · exact Or.inl rfl

theorem eprojGo_invuln_nonneg (ps : List Projectile) :
    ∀ (p : Player) (st : BState), 0 ≤ p.invuln →
      0 ≤ (eprojGo ps p st).2.1.invuln := by
  induction ps with
  | nil => intro p st h; exact h
  | cons pr rest ih =>
    intro p st h
    simp only [eprojGo]
    refine ih (eprojStep pr p st).2.1 (eprojStep pr p st).2.2 ?_
    rcases eprojStep_invuln_cases pr p st with hc | hc <;> rw [hc] <;> omega

theorem fightTickMid_invuln_nonneg (br : BossRoom) (p : Player) (env : FightEnv)
    (h : 0 ≤ p.invuln) : 0 ≤ (fightTickMid br p env).player.invuln := by
  simp only [fightTickMid]
  exact eprojGo_invuln_nonneg _ _ _
    (swarmGo_invuln_nonneg env.mem br.swarm 0
      ⟨p, br.state, br.enemy_projectiles⟩ h)

theorem update_player_frozen (br : BossRoom) (p : Player) (env : FightEnv)
    (h : p.invuln ≠ 0) : (BossRoom.update br p env).2 = p := by
  simp only [BossRoom.update]
  split
  · exact (fightTickMid_frozen _ p env h).1
  · rfl

theorem update_invuln_nonneg (br : BossRoom) (p : Player) (env : FightEnv)
    (h : 0 ≤ p.invuln) : 0 ≤ (BossRoom.update br p env).2.invuln := by
  simp only [BossRoom.update]
  split
  · exact fightTickMid_invuln_nonneg _ p env h
  · exact h

theorem drawStep_invuln_nonneg (p : Player) (h : 0 ≤ p.invuln) :
    0 ≤ p.drawStep.invuln := by
  unfold Player.drawStep
  split
  · next h1 => dsimp only; omega
  · exact h

theorem drawStep_invuln_pos (p : Player) (h : 0 < p.invuln) :
    p.drawStep.invuln = p.invuln - 1 := by
  unfold Player.drawStep
  rw [if_pos h]

theorem fight_result_aux (br1 : BossRoom) (p : Player) (env : FightEnv)
    (hp1 : 1 ≤ p.hp) :
    0 ≤ (fightTickMid br1 p env).player.hp ∧
    ((fightTickMid br1 p env).st = BState.fight →
      1 ≤ (fightTickMid br1 p env).player.hp) ∧
    ((fightTickMid br1 p env).st = BState.game_over ∨
      (fightTickMid br1 p env).st = br1.state) := by
  have hi := fightTickMid_invp br1 p env
  rcases hi with ⟨hpl, hst⟩ | ⟨e1, e2, e3, e4⟩
  · rw [hpl, hst]
    exact ⟨by omega, fun _ => hp1, Or.inr rfl⟩
  · refine ⟨by omega, ?_, ?_⟩
    · intro hf
      by_contra hlt
      have h5 : (fightTickMid br1 p env).player.hp ≤ 0 := by omega
      have h6 := e4 h5
      rw [hf] at h6
      exact absurd h6 (by decide)
    · rcases e3 with h | h
      · exact Or.inr h
      · exact Or.inl h

theorem update_health_aux (br : BossRoom) (p : Player) (env : FightEnv)
    (h0 : 0 ≤ p.hp)
    (h1 : br.state = BState.fight ∨ br.state = BState.intro → 1 ≤ p.hp) :
    0 ≤ (BossRoom.update br p env).2.hp ∧
    ((BossRoom.update br p env).1.state = BState.fight ∨
      (BossRoom.update br p env).1.state = BState.intro →
      1 ≤ (BossRoom.update br p env).2.hp) := by
  simp only [BossRoom.update]
  split
  · next hf =>
    have hp1 : 1 ≤ p.hp := h1 (introStep_state br (Or.inl hf))
    have ha := fight_result_aux (introStep br) p env hp1
    refine ⟨ha.1, ?_⟩
    intro hst
    dsimp only at hst
    split at hst
    · rcases hst with h | h <;> exact absurd h (by decide)
    · rcases hst with h | h
      · exact ha.2.1 h
      · rcases ha.2.2 with hg | hg
        · rw [h] at hg; exact absurd hg (by decide)
        · rw [h] at hg
          rw [← hg] at hf
          exact absurd hf (by decide)
  · next hnf =>
    refine ⟨h0, ?_⟩
    intro hst
    dsimp only at hst
    rcases hst with h | h
    · exact absurd h hnf
    · apply h1
      by_cases hi0 : br.state = BState.intro
      · exact Or.inr hi0
      · rw [introStep_not_intro br hi0] at h
        exact absurd h hi0

/-!
Claim C5.
-/

/-- C5: across one boss-mode frame, player health stays non-negative (with
the tick invariant that health is at least 1 whenever the arena phase is
`intro` or `fight`, which `reset` establishes with health 5 and phase
`intro`), and while the invulnerability countdown is positive neither swarm
contact nor an enemy projectile changes the player's health. -/
theorem c5_player_health_invariant (br : BossRoom) (p : Player) (env : FightEnv)
    (h0 : 0 ≤ p.hp)
    (h1 : br.state = BState.fight ∨ br.state = BState.intro → 1 ≤ p.hp) :
    0 ≤ (bossFrame br p env).2.hp ∧
    ((bossFrame br p env).1.state = BState.fight ∨
      (bossFrame br p env).1.state = BState.intro →
      1 ≤ (bossFrame br p env).2.hp) ∧
    (0 < p.invuln → (bossFrame br p env).2.hp = p.hp) := by
  simp only [bossFrame]
  have hp1hp :
      (if br.state = BState.fight then p.applyMove env.pmove else p).hp
        = p.hp := by
    split <;> rfl
  have hp1inv :
      (if br.state = BState.fight then p.applyMove env.pmove else p).invuln
        = p.invuln := by
    split <;> rfl
  have haux := update_health_aux br
    (if br.state = BState.fight then p.applyMove env.pmove else p) env
    (by rw [hp1hp]; exact h0) (by rw [hp1hp]; exact h1)
  refine ⟨?_, ?_, ?_⟩
  · rw [drawStep_hp]; exact haux.1
  · intro hst; rw [drawStep_hp]; exact haux.2 hst
  · intro hv
    have hne :
        (if br.state = BState.fight then p.applyMove env.pmove else p).invuln
          ≠ 0 := by
      rw [hp1inv]; omega
    rw [drawStep_hp, update_player_frozen br _ env hne, hp1hp]

/-- Witness for C5: a frame of an empty-swarm fight with a positive
countdown leaves health at its initial non-negative value. -/
theorem c5_player_health_invariant_witness :
    0 ≤ (bossFrame brEmptyFight pC5 envZero).2.hp ∧
    (bossFrame brEmptyFight pC5 envZero).2.hp = pC5.hp := by
  have h := c5_player_health_invariant brEmptyFight pC5 envZero (by decide)
    (fun _ => by decide)
  exact ⟨h.1, h.2.2 (by decide)⟩

/-!
Claim C6 (amended theorem).
-/

/-- C6 (amended): the invulnerability countdown never goes below 0 in any
mode; in hub and boss-room frames a positive countdown is decremented
exactly once per tick (the boss draw pass runs in every arena phase); in
intro and puzzle-mode frames the player is untouched, so the countdown is
not decremented there. -/
theorem c6_invuln_countdown (m : Mode) (br : BossRoom) (p : Player)
    (env : FightEnv) (mv : Vec) :
    (0 ≤ p.invuln → 0 ≤ (frameTick m br p env mv).2.invuln) ∧
    (m = Mode.hub → 0 < p.invuln →
      (frameTick m br p env mv).2.invuln = p.invuln - 1) ∧
    (m = Mode.boss_room → 0 < p.invuln →
      (frameTick m br p env mv).2.invuln = p.invuln - 1) ∧
    (m ≠ Mode.hub → m ≠ Mode.boss_room → (frameTick m br p env mv).2 = p) := by
  refine ⟨?_, ?_, ?_, ?_⟩
  · intro h
    cases m with
    | hub =>
      simp only [frameTick, hubFrame]
      exact drawStep_invuln_nonneg _ (by rw [applyMove_invuln]; exact h)
    | boss_room =>
      simp only [frameTick, bossFrame]
      refine drawStep_invuln_nonneg _ (update_invuln_nonneg br _ env ?_)
      split
      · rw [applyMove_invuln]; exact h
      · exact h
    | intro => exact h
    | power_puzzle => exact h
    | server => exact h
    | botany => exact h
    | engineering => exact h
  · intro hm hv
    subst hm
    simp only [frameTick, hubFrame]
    rw [drawStep_invuln_pos _ (by rw [applyMove_invuln]; exact hv),
      applyMove_invuln]
  · intro hm hv
    subst hm
    simp only [frameTick, bossFrame]
    have hp1inv :
        (if br.state = BState.fight then p.applyMove env.pmove else p).invuln
          = p.invuln := by
      split <;> rfl
    have hne :
        (if br.state = BState.fight then p.applyMove env.pmove else p).invuln
          ≠ 0 := by
      rw [hp1inv]; omega
    rw [drawStep_invuln_pos _ (by rw [update_player_frozen br _ env hne, hp1inv]; exact hv),
      update_player_frozen br _ env hne, hp1inv]
  · intro h1 h2
    cases m with
    | hub => exact absurd rfl h1
    | boss_room => exact absurd rfl h2
    | intro => rfl
    | power_puzzle => rfl
    | server => rfl
    | botany => rfl
    | engineering => rfl

/-- Witness for C6: one hub frame decrements a positive countdown by one. -/
theorem c6_invuln_countdown_witness :
    (frameTick Mode.hub brQuiet pC6 envZero ((100 : ℚ), (100 : ℚ))).2.invuln
      = pC6.invuln - 1 :=
  (c6_invuln_countdown Mode.hub brQuiet pC6 envZero (100, 100)).2.1 rfl
    (by decide)

/-!
List lemmas about damage propagation, for claims C2 and C4.
-/

theorem hp_le_trans : ∀ {l1 l2 l3 : List HerdMember},
    List.Forall₂ (fun a b => b.hp ≤ a.hp) l1 l2 →
    List.Forall₂ (fun a b => b.hp ≤ a.hp) l2 l3 →
    List.Forall₂ (fun a b => b.hp ≤ a.hp) l1 l3 := by
  intro l1 l2 l3 h1
  induction h1 generalizing l3 with
  | nil =>
    intro h2
    cases h2
    exact List.Forall₂.nil
  | cons hab h ih =>
    intro h2
    cases h2 with
    | cons hbc h2' => exact List.Forall₂.cons (le_trans hbc hab) (ih h2')

theorem hp_eq_then_le : ∀ {l1 l2 l3 : List HerdMember},
    List.Forall₂ (fun a b => b.hp = a.hp) l1 l2 →
    List.Forall₂ (fun a b => b.hp ≤ a.hp) l2 l3 →
    List.Forall₂ (fun a b => b.hp ≤ a.hp) l1 l3 := by
  intro l1 l2 l3 h1
  induction h1 generalizing l3 with
  | nil =>
    intro h2
    cases h2
    exact List.Forall₂.nil
  | cons hab h ih =>
    intro h2
    cases h2 with
    | cons hbc h2' => exact List.Forall₂.cons (le_of_le_of_eq hbc hab) (ih h2')

theorem swarmGo_hp (env : ℕ → MemberEnv) (ms : List HerdMember) :
    ∀ (i : ℕ) (acc : FightAcc),
      List.Forall₂ (fun a b => b.hp = a.hp) ms (swarmGo env i ms acc).1 := by
  induction ms with
  | nil => intro i acc; exact List.Forall₂.nil
  | cons m rest ih =>
    intro i acc
    simp only [swarmGo]
    exact List.Forall₂.cons
      (by rw [swarmStep_fst]; exact HerdMember.update_hp m (env i))
      (ih (i + 1) (swarmStep (env i) m acc).2)

theorem damageFirst_le (v : Vec) : ∀ ms : List HerdMember,
    List.Forall₂ (fun a b => b.hp ≤ a.hp) ms (damageFirst v ms).1 := by
  intro ms
  induction ms with
  | nil => exact List.Forall₂.nil
  | cons m rest ih =>
    simp only [damageFirst]
    split
    · exact List.Forall₂.cons (by dsimp only; omega)
        (List.forall₂_same.mpr fun x _ => le_refl x.hp)
    · exact List.Forall₂.cons (le_refl m.hp) ih

theorem pprojStep_le (pr : Projectile) (ms : List HerdMember) :
    List.Forall₂ (fun a b => b.hp ≤ a.hp) ms (pprojStep pr ms).2 := by
  simp only [pprojStep]
  exact damageFirst_le (Projectile.update pr).pos ms

theorem pprojGo_le (ps : List Projectile) :
    ∀ ms : List HerdMember,
      List.Forall₂ (fun a b => b.hp ≤ a.hp) ms (pprojGo ps ms).2 := by
  induction ps with
  | nil =>
    intro ms
    exact List.forall₂_same.mpr fun x _ => le_refl x.hp
  | cons pr rest ih =>
    intro ms
    simp only [pprojGo]
    exact hp_le_trans (pprojStep_le pr ms) (ih (pprojStep pr ms).2)

theorem fightTickMid_swarm_le (br : BossRoom) (p : Player) (env : FightEnv) :
    List.Forall₂ (fun a b => b.hp ≤ a.hp) br.swarm
      (fightTickMid br p env).swarm := by
  simp only [fightTickMid]
  exact hp_eq_then_le (swarmGo_hp env.mem br.swarm 0 _)
    (pprojGo_le br.player_projectiles _)

/-!
Claim C2.
-/

/-- C2 (amended): across one boss-mode frame, swarm health never increases
(the surviving swarm is the positive-health filter of a pointwise-damaged
copy of the old swarm), and every member still in the collection at the end
of a tick has strictly positive health — but at the moment of removal a
member's health is at most 0 rather than exactly 0, because several
projectiles can each deal 2 damage to the same member within one tick (see
the counterexample, where a member is removed at health -2). -/
theorem c2_swarm_health_monotone (br : BossRoom) (p : Player) (env : FightEnv)
    (h : ∀ m ∈ br.swarm, 0 < m.hp) :
    ((bossFrame br p env).1.swarm.all fun m => decide (0 < m.hp)) = true ∧
    (∀ m ∈ (bossFrame br p env).1.swarm, 0 < m.hp) ∧
    ∃ ms, List.Forall₂ (fun a b => b.hp ≤ a.hp) br.swarm ms ∧
      (bossFrame br p env).1.swarm = ms.filter fun m => decide (0 < m.hp) := by
  simp only [bossFrame, BossRoom.update]
  split
  · dsimp only
    refine ⟨?_, ?_, ?_⟩
    · exact List.all_eq_true.mpr fun m hm => (List.mem_filter.mp hm).2
    · intro m hm
      exact of_decide_eq_true (List.mem_filter.mp hm).2
    · refine ⟨(fightTickMid (introStep br) _ env).swarm, ?_, rfl⟩
      have h1 := fightTickMid_swarm_le (introStep br)
        (if br.state = BState.fight then p.applyMove env.pmove else p) env
      rw [introStep_swarm] at h1
      exact h1
  · dsimp only
    rw [introStep_swarm]
    refine ⟨?_, h, ?_⟩
    · exact List.all_eq_true.mpr fun m hm => decide_eq_true (h m hm)
    · refine ⟨br.swarm, List.forall₂_same.mpr fun x _ => le_refl x.hp, ?_⟩
      exact (List.filter_eq_self.mpr fun m hm => decide_eq_true (h m hm)).symm

/-- Counterexample to C2 as stated: three projectiles hit the same
full-health (hp 4) member in one tick; it is removed in that tick with
health -2, not exactly 0. -/
theorem c2_removed_at_negative_hp :
    (fightTickMid brC2 pC2 envRight).swarm.map HerdMember.hp = [-2] ∧
    (BossRoom.update brC2 pC2 envRight).1.swarm = [] := by
  norm_num [fightTickMid, swarmGo, swarmStep, HerdMember.update, eprojGo,
    eprojStep, pprojGo, pprojStep, damageFirst, Projectile.update, distSq,
    mrect, truncQ, rectsCollide, BossRoom.update, introStep, brC2, pC2,
    envRight, List.filter]
  decide

/-- Witness for C2's amended theorem: a frame over a quiet fight leaves the
sole member's health positive. -/
theorem c2_swarm_health_monotone_witness :
    ((bossFrame brW2 pC2 envRight).1.swarm.all fun m => decide (0 < m.hp))
      = true :=
  (c2_swarm_health_monotone brW2 pC2 envRight (by decide)).1

/-!
Claim C4.
-/

theorem damageFirst_none (v : Vec) : ∀ ms : List HerdMember,
    (∀ m ∈ ms, ¬ distSq v m.pos < 529) → damageFirst v ms = (ms, false) := by
  intro ms
  induction ms with
  | nil => intro _; rfl
  | cons m rest ih =>
    intro h
    simp only [damageFirst]
    rw [if_neg (h m (List.mem_cons_self m rest)),
      ih fun x hx => h x (List.mem_cons_of_mem m hx)]

theorem damageFirst_hit (v : Vec) (a : HerdMember) :
    ∀ (pre post : List HerdMember),
      (∀ m ∈ pre, ¬ distSq v m.pos < 529) → distSq v a.pos < 529 →
      damageFirst v (pre ++ a :: post) =
        (pre ++ { a with hp := a.hp - 2 } :: post, true) := by
  intro pre
  induction pre with
  | nil =>
    intro post _ ha
    simp only [List.nil_append, damageFirst]
    rw [if_pos ha]
  | cons m rest ih =>
    intro post h ha
    show damageFirst v (m :: (rest ++ a :: post)) =
      (m :: (rest ++ { a with hp := a.hp - 2 } :: post), true)
    simp only [damageFirst]
    rw [if_neg (h m (List.mem_cons_self m rest)),
      ih post (fun x hx => h x (List.mem_cons_of_mem m hx)) ha]

/-- C4 (amended): for each projectile in the per-tick list, after its
position update (which may deactivate it on leaving the playfield) the swarm
is scanned in iteration order regardless of the liveness flag: if no member
is within 23 units nothing changes; otherwise only the first such member
takes the fixed 2 damage, the projectile is then deactivated and scanning
stops, so one projectile damages at most one member per tick.  The "a
projectile that is not active damages no unit" clause of the claim fails: a
projectile deactivated by leaving the bounds in this very tick still damages
a member in range (see the counterexample). -/
theorem c4_first_match_projectile (pr : Projectile) (ms : List HerdMember) :
    ((∀ m ∈ ms, ¬ distSq (Projectile.update pr).pos m.pos < 529) →
      pprojStep pr ms = (Projectile.update pr, ms)) ∧
    (∀ pre a post, ms = pre ++ a :: post →
      (∀ m ∈ pre, ¬ distSq (Projectile.update pr).pos m.pos < 529) →
      distSq (Projectile.update pr).pos a.pos < 529 →
      pprojStep pr ms =
        ({ Projectile.update pr with active := false },
         pre ++ { a with hp := a.hp - 2 } :: post)) := by
  constructor
  · intro h
    simp only [pprojStep]
    rw [damageFirst_none _ ms h]
    rfl
  · intro pre a post hms hpre ha
    subst hms
    simp only [pprojStep]
    rw [damageFirst_hit _ a pre post hpre ha]
    rfl

/-- Counterexample to C4 as stated: the projectile `prC4` leaves the
playfield this tick, so its update deactivates it — yet the scan still runs
and the member in range takes the 2 damage (its health drops from 4 to 2 and
it survives the tick). -/
theorem c4_inactive_projectile_damages :
    (Projectile.update prC4).active = false ∧
    (fightTickMid brC4 pC4 envDown).swarm.map HerdMember.hp = [2] ∧
    (BossRoom.update brC4 pC4 envDown).1.swarm.map HerdMember.hp = [2] := by
  norm_num [fightTickMid, swarmGo, swarmStep, HerdMember.update, eprojGo,
    eprojStep, pprojGo, pprojStep, damageFirst, Projectile.update, distSq,
    mrect, truncQ, rectsCollide, BossRoom.update, introStep, brC4, pC4, prC4,
    envDown, List.filter]
  decide

/-- Witness for C4's amended theorem, on the spec's own scenario: one
projectile in range of two overlapping members damages exactly the first. -/
theorem c4_first_match_projectile_witness :
    pprojStep prW4 [mA, mB] =
      ({ Projectile.update prW4 with active := false },
       [{ mA with hp := mA.hp - 2 }, mB]) := by
  have h := (c4_first_match_projectile prW4 [mA, mB]).2 [] mA [mB] rfl
    (by intro m hm; exact absurd hm (List.not_mem_nil m))
    (by norm_num [distSq, Projectile.update, prW4, mA])
  simpa using h

/-!
Claim C9.
-/

/-- C9: one `handle_input` call performs, in order: sum the 0.8 unit-step
acceleration over held directions (diagonals summing componentwise), add it
to the velocity and multiply by the 0.85 friction factor regardless of input
(`velAfterFriction`), cap the speed — leaving the velocity unchanged
whenever its squared magnitude is within `36 = 6 ^ 2`, and otherwise
rescaling it by a positive scalar (direction preserved) to magnitude exactly
6 — then integrate the position by the final velocity and clamp each
coordinate into `[0, 960 - 32] x [0, 540 - 32]`. -/
theorem c9_movement_pipeline (k : Keys) (pos vel : ℝ × ℝ) :
    (handle_input k pos vel).2 = capVel (velAfterFriction k vel) ∧
    (handle_input k pos vel).1 =
      clampPos (pos.1 + (capVel (velAfterFriction k vel)).1,
        pos.2 + (capVel (velAfterFriction k vel)).2) ∧
    velAfterFriction k vel =
      ((0.85 : ℝ) * (vel.1 + (accelOf k).1),
       (0.85 : ℝ) * (vel.2 + (accelOf k).2)) ∧
    ((velAfterFriction k vel).1 ^ 2 + (velAfterFriction k vel).2 ^ 2 ≤ 36 →
      capVel (velAfterFriction k vel) = velAfterFriction k vel) ∧
    (36 < (velAfterFriction k vel).1 ^ 2 + (velAfterFriction k vel).2 ^ 2 →
      (∃ c : ℝ, 0 < c ∧
        capVel (velAfterFriction k vel) =
          (c * (velAfterFriction k vel).1, c * (velAfterFriction k vel).2)) ∧
      (capVel (velAfterFriction k vel)).1 ^ 2 +
        (capVel (velAfterFriction k vel)).2 ^ 2 = 36) ∧
    (0 ≤ (handle_input k pos vel).1.1 ∧ (handle_input k pos vel).1.1 ≤ 928 ∧
      0 ≤ (handle_input k pos vel).1.2 ∧ (handle_input k pos vel).1.2 ≤ 508) := by
  have h36 : Real.sqrt 36 = 6 := by
    rw [show (36 : ℝ) = 6 ^ 2 by norm_num]
    exact Real.sqrt_sq (by norm_num)
  refine ⟨rfl, rfl, rfl, ?_, ?_, ?_⟩
  · intro h
    have hle :
        Real.sqrt ((velAfterFriction k vel).1 ^ 2 +
          (velAfterFriction k vel).2 ^ 2) ≤ 6 := by
      rw [← h36]
      exact Real.sqrt_le_sqrt h
    unfold capVel
    rw [if_neg (not_lt.mpr hle)]
  · intro h
    have hs0 :
        (0 : ℝ) ≤ (velAfterFriction k vel).1 ^ 2 +
          (velAfterFriction k vel).2 ^ 2 := by positivity
    have hspos :
        (0 : ℝ) < (velAfterFriction k vel).1 ^ 2 +
          (velAfterFriction k vel).2 ^ 2 := by linarith
    have h6 :
        6 < Real.sqrt ((velAfterFriction k vel).1 ^ 2 +
          (velAfterFriction k vel).2 ^ 2) := by
      rw [← h36]
      exact Real.sqrt_lt_sqrt (by norm_num) h
    have hrpos :
        0 < Real.sqrt ((velAfterFriction k vel).1 ^ 2 +
          (velAfterFriction k vel).2 ^ 2) := Real.sqrt_pos.mpr hspos
    constructor
    · refine ⟨6 / Real.sqrt ((velAfterFriction k vel).1 ^ 2 +
        (velAfterFriction k vel).2 ^ 2), div_pos (by norm_num) hrpos, ?_⟩
      unfold capVel
      rw [if_pos h6]
    · unfold capVel
      rw [if_pos h6]
      have hsq := Real.sq_sqrt hs0
      set a := (velAfterFriction k vel).1 with ha
      set b := (velAfterFriction k vel).2 with hb
      set r := Real.sqrt (a ^ 2 + b ^ 2) with hr
      have key : (6 / r * a) ^ 2 + (6 / r * b) ^ 2
          = 36 * (a ^ 2 + b ^ 2) / r ^ 2 := by ring
      rw [key, hsq, mul_div_assoc, div_self (ne_of_gt hspos), mul_one]
  · simp only [handle_input, clampPos]
    refine ⟨le_max_left 0 _, ?_, le_max_left 0 _, ?_⟩
    · exact max_le (by norm_num) (le_trans (min_le_right _ _) (by norm_num))
    · exact max_le (by norm_num) (le_trans (min_le_right _ _) (by norm_num))

/-- Witness for C9: holding only the left key from rest, the speed stays
within the cap, so the velocity after the tick is exactly the
post-friction velocity, and the clamped position stays in bounds. -/
theorem c9_movement_pipeline_witness :
    (handle_input ⟨true, false, false, false⟩ ((100 : ℝ), 100) (0, 0)).2 =
      velAfterFriction ⟨true, false, false, false⟩ (0, 0) ∧
    (handle_input ⟨true, false, false, false⟩ ((100 : ℝ), 100) (0, 0)).1.1
      ≤ 928 := by
  have h := c9_movement_pipeline ⟨true, false, false, false⟩ (100, 100) (0, 0)
  refine ⟨?_, h.2.2.2.2.2.2.1⟩
  rw [h.1]
  exact h.2.2.2.1 (by norm_num [velAfterFriction, accelOf])
